import Mathlib

/-!
Shallow embedding of FiloSottile/xaes256gcm (file `XAES-256-GCM.go`).

Bytes are modelled as `List Nat` (each element a byte value). The AES-256
block cipher is an external collaborator of the library (`crypto/aes`), so
every definition is parameterised over a block-cipher function
`E : List Nat → List Nat → List Nat` mapping a key and a 16-byte block to a
16-byte block. The GCM mode (`crypto/cipher.NewGCM`, also an external
collaborator) is modelled concretely below, generically over `E`, following
the standard GCM composition used by Go's standard library: 12-byte nonce,
16-byte tag, CTR encryption starting at inc32(J0), tag = GHASH ⊕ E(J0).

Go panics are modelled as `Option` results (`none` = panic / trap);
recoverable Go errors are modelled as `Except String` with the exact error
strings of the source.
-/

/-- A block cipher: key and 16-byte block to 16-byte block. Models the
external `crypto/aes` collaborator, keyed by the raw key bytes. -/
def BlockCipher : Type := List Nat → List Nat → List Nat

/-- Big-endian interpretation of a byte list as a natural number. -/
def beToNat : List Nat → Nat
  | [] => 0
  | b :: r => b * 256 ^ r.length + beToNat r

/-- Big-endian encoding of a natural number into exactly `w` bytes. -/
def natToBe : Nat → Nat → List Nat
  | 0, _ => []
  | w + 1, n => natToBe w (n / 256) ++ [n % 256]

/-- Byte-wise XOR of two byte lists (models `crypto/subtle.XORBytes`,
truncating to the shorter of the two). -/
def xorBytes (a b : List Nat) : List Nat := List.zipWith (fun x y => x ^^^ y) a b

/-- The GCM reduction constant R = 0xe1 followed by fifteen zero bytes. -/
def gcmR : Nat := 0xe1000000000000000000000000000000

/-- One step of the GCM shift-and-reduce multiplication. -/
def gcmMulStep (v : Nat) : Nat :=
  if v % 2 = 1 then (v / 2) ^^^ gcmR else v / 2

/-- Fueled core of GF(2^128) multiplication in GCM's reflected representation:
walk the 128 bits of `x` from the most significant down. -/
def gcmMulAux : Nat → Nat → Nat → Nat → Nat
  | 0, _, _, z => z
  | n + 1, x, v, z =>
    gcmMulAux n (x * 2 % 2 ^ 128) (gcmMulStep v)
      (if x / 2 ^ 127 % 2 = 1 then z ^^^ v else z)

/-- GF(2^128) multiplication as used by GHASH. -/
def gcmMul (x y : Nat) : Nat := gcmMulAux 128 x y 0

/-- GHASH folding over a flat byte string, 16 bytes at a time; the fuel is
an upper bound on the number of blocks, so that the function is structural
and computes by kernel reduction. -/
def ghashBlocks (h : Nat) : Nat → Nat → List Nat → Nat
  | 0, y, _ => y
  | f + 1, y, l =>
    if l = [] then y
    else ghashBlocks h f (gcmMul (y ^^^ beToNat (l.take 16)) h) (l.drop 16)

/-- GHASH of a flat byte string under the hash key `h`. -/
def ghashCore (h y : Nat) (l : List Nat) : Nat := ghashBlocks h l.length y l

/-- Zero padding of a byte string up to a multiple of 16 bytes. -/
def pad16 (l : List Nat) : List Nat :=
  l ++ List.replicate ((16 - l.length % 16) % 16) 0

/-- The byte string that GHASH authenticates: padded AAD, padded ciphertext,
then the two 64-bit bit lengths. -/
def ghashInput (aad ct : List Nat) : List Nat :=
  pad16 aad ++ pad16 ct ++ natToBe 8 (aad.length * 8) ++ natToBe 8 (ct.length * 8)

/-- The CTR keystream of GCM: blocks E(nonce ++ be32(2+i)), joined and cut
to `len` bytes. -/
def keystream (E : BlockCipher) (k n : List Nat) (len : Nat) : List Nat :=
  (((List.range ((len + 15) / 16)).map
      (fun i => E k (n ++ natToBe 4 ((2 + i) % 2 ^ 32)))).flatten).take len

/-- CTR encryption/decryption: XOR the message with the keystream. -/
def ctrCrypt (E : BlockCipher) (k n msg : List Nat) : List Nat :=
  List.zipWith (fun x y => x ^^^ y) msg (keystream E k n msg.length)

/-- The GCM authentication tag over a ciphertext and associated data:
GHASH under H = E(0^16), masked with E(J0) where J0 = nonce ++ be32(1). -/
def gcmTag (E : BlockCipher) (k n ct aad : List Nat) : List Nat :=
  natToBe 16
    (ghashCore (beToNat (E k (List.replicate 16 0))) 0 (ghashInput aad ct) ^^^
      beToNat (E k (n ++ natToBe 4 1)))

/-- GCM Seal: append ciphertext and tag to `dst` (models
`cipher.AEAD.Seal` of an AES-GCM instance with 12-byte nonce). -/
def gcmSeal (E : BlockCipher) (k dst n pt aad : List Nat) : List Nat :=
  let ct := ctrCrypt E k n pt
  dst ++ ct ++ gcmTag E k n ct aad

/-- GCM Open: check the tag, then append the decrypted plaintext to `dst`;
the error string is the one of Go's `crypto/cipher`. -/
def gcmOpen (E : BlockCipher) (k dst n c aad : List Nat) : Except String (List Nat) :=
  if c.length < 16 then .error "cipher: message authentication failed"
  else
    let ct := c.take (c.length - 16)
    let tag := c.drop (c.length - 16)
    if tag = gcmTag E k n ct aad then .ok (dst ++ ctrCrypt E k n ct)
    else .error "cipher: message authentication failed"

/-! The XAES-256-GCM library itself, translated from `XAES-256-GCM.go`. -/

/-- KeySize of `XAES-256-GCM.go`. -/
def KeySize : Nat := 32

/-- NonceSize of `XAES-256-GCM.go`. -/
def NonceSize : Nat := 24

/-- OverheadWithManualNonces of `XAES-256-GCM.go`. -/
def OverheadWithManualNonces : Nat := 16

/-- Overhead of `XAES-256-GCM.go`. -/
def Overhead : Nat := 40

/-- The AES block size (`crypto/aes.BlockSize`). -/
def aesBlockSize : Nat := 16

/-- An XAES-256-GCM instance: the master key (standing for the expanded
cipher `x.c`) and the derived subkey `x.k1`. -/
structure XAES where
  ck : List Nat
  k1 : List Nat
  deriving DecidableEq

/-- The carry loop of `newWithManualNonces`: shift a big-endian byte string
left by one bit across byte boundaries, returning the carried-out most
significant bit and the shifted bytes. Translates the Go loop
`for i := len(x.k1)-1; i >= 0; i-- { msb, x.k1[i] = x.k1[i]>>7, x.k1[i]<<1|msb }`. -/
def shl1 : List Nat → Nat × List Nat
  | [] => (0, [])
  | b :: r =>
    let p := shl1 r
    (b / 128, (b * 2 % 256 ||| p.1) :: p.2)

/-- XOR the last byte of a byte string with `m` (translates
`x.k1[len(x.k1)-1] ^= msb * 0b10000111`). -/
def setLastXor : List Nat → Nat → List Nat
  | [], _ => []
  | [b], m => [b ^^^ m]
  | b :: r, m => b :: setLastXor r m

/-- The K1 computation of `newWithManualNonces`: shift left one bit, then
XOR the last byte with `msb * 0x87`. -/
def cmacDouble (l : List Nat) : List Nat :=
  let p := shl1 l
  setLastXor p.2 (p.1 * 0x87)

/-- Translation of `newWithManualNonces`: reject keys that are not 32 bytes,
else build the instance with K1 derived from E_key(0^16). -/
def newWithManualNonces (E : BlockCipher) (key : List Nat) : Except String XAES :=
  if key.length ≠ KeySize then .error "xaes256gcm: bad key length"
  else .ok { ck := key, k1 := cmacDouble (E key (List.replicate 16 0)) }

/-- Translation of the exported `NewWithManualNonces`. -/
def NewWithManualNonces (E : BlockCipher) (key : List Nat) : Except String XAES :=
  newWithManualNonces E key

/-- Translation of `New`: construct the manual-nonce instance and wrap it
(the wrapper holds the same state). -/
def New (E : BlockCipher) (key : List Nat) : Except String XAES :=
  match newWithManualNonces E key with
  | .error e => .error e
  | .ok x => .ok x

/-- Translation of `xaes256gcmManual.deriveKey`: build the two counter
blocks as one 32-byte buffer, XOR each half with K1, encrypt each half. -/
def deriveKey (E : BlockCipher) (x : XAES) (nonce : List Nat) : List Nat :=
  let k := [0, 1, 88, 0] ++ nonce ++ ([0, 2, 88, 0] ++ nonce)
  E x.ck (xorBytes (k.take aesBlockSize) x.k1) ++
    E x.ck (xorBytes (k.drop aesBlockSize) x.k1)

/-- Translation of `xaes256gcmManual.Seal`: panic (`none`) on a nonce that
is not 24 bytes, else derive the message key and delegate to GCM with the
last 12 nonce bytes. -/
def sealManual (E : BlockCipher) (x : XAES) (dst nonce pt aad : List Nat) :
    Option (List Nat) :=
  if nonce.length ≠ NonceSize then none
  else some (gcmSeal E (deriveKey E x (nonce.take 12)) dst (nonce.drop 12) pt aad)

/-- Translation of `xaes256gcmManual.Open`: recoverable error on a nonce
that is not 24 bytes, else derive the message key and delegate to GCM. -/
def openManual (E : BlockCipher) (x : XAES) (dst nonce ct aad : List Nat) :
    Except String (List Nat) :=
  if nonce.length ≠ NonceSize then .error "xaes256gcm: bad nonce length"
  else gcmOpen E (deriveKey E x (nonce.take 12)) dst (nonce.drop 12) ct aad

/-- Translation of `xaes256gcm.Seal` (automatic mode): panic (`none`) on a
non-empty caller nonce or on random-source failure (`rnd = none`); else the
24 random bytes are appended to `dst` and used as the manual nonce. -/
def sealAuto (E : BlockCipher) (x : XAES) (dst nonce : List Nat)
    (rnd : Option (List Nat)) (pt aad : List Nat) : Option (List Nat) :=
  if nonce.length ≠ 0 then none
  else
    match rnd with
    | none => none
    | some r => sealManual E x (dst ++ r) r pt aad

/-- Translation of `xaes256gcm.Open` (automatic mode): error on a non-empty
caller nonce, uniform authentication failure on input shorter than 24
bytes, else split off the nonce and delegate to the manual-mode Open. -/
def openAuto (E : BlockCipher) (x : XAES) (dst nonce ct aad : List Nat) :
    Except String (List Nat) :=
  if nonce.length ≠ 0 then .error "xaes256gcm: bad nonce length"
  else if ct.length < NonceSize then .error "xaes256gcm: message authentication failed"
  else openManual E x dst (ct.take NonceSize) (ct.drop NonceSize) aad

/-! Helper lemmas. -/

theorem natToBe_length (w n : Nat) : (natToBe w n).length = w := by
  induction w generalizing n with
  | zero => rfl
  | succ w ih => simp [natToBe, ih]

theorem keystream_length (E : BlockCipher) (hE : ∀ k b, (E k b).length = 16)
    (k n : List Nat) (len : Nat) : (keystream E k n len).length = len := by
  unfold keystream
  rw [List.length_take]
  have h : ∀ l : List Nat,
      ((l.map (fun i => E k (n ++ natToBe 4 ((2 + i) % 2 ^ 32)))).flatten).length
        = 16 * l.length := by
    intro l
    induction l with
    | nil => simp
    | cons a t ih =>
      simp only [List.map_cons, List.flatten_cons, List.length_append, hE, ih,
        List.length_cons]
      ring
  rw [h, List.length_range]
  omega

theorem ctrCrypt_length (E : BlockCipher) (hE : ∀ k b, (E k b).length = 16)
    (k n msg : List Nat) : (ctrCrypt E k n msg).length = msg.length := by
  unfold ctrCrypt
  rw [List.length_zipWith, keystream_length E hE]
  omega

theorem zipWith_xor_cancel (msg ks : List Nat) (h : msg.length ≤ ks.length) :
    List.zipWith (fun x y => x ^^^ y) (List.zipWith (fun x y => x ^^^ y) msg ks) ks
      = msg := by
  induction msg generalizing ks with
  | nil => simp
  | cons a t ih =>
    cases ks with
    | nil => simp at h
    | cons b u =>
      simp only [List.zipWith_cons_cons, List.cons.injEq]
      exact ⟨Nat.xor_cancel_right b a, ih u (by simpa using h)⟩

theorem ctrCrypt_invol (E : BlockCipher) (hE : ∀ k b, (E k b).length = 16)
    (k n msg : List Nat) : ctrCrypt E k n (ctrCrypt E k n msg) = msg := by
  have hl : (ctrCrypt E k n msg).length = msg.length := ctrCrypt_length E hE k n msg
  rw [show ctrCrypt E k n (ctrCrypt E k n msg)
        = List.zipWith (fun x y => x ^^^ y) (ctrCrypt E k n msg)
            (keystream E k n (ctrCrypt E k n msg).length) from rfl]
  rw [hl]
  rw [show ctrCrypt E k n msg
        = List.zipWith (fun x y => x ^^^ y) msg (keystream E k n msg.length) from rfl]
  exact zipWith_xor_cancel msg _ (le_of_eq (keystream_length E hE k n msg.length).symm)

theorem gcm_roundtrip (E : BlockCipher) (hE : ∀ k b, (E k b).length = 16)
    (k n pt aad : List Nat) :
    gcmOpen E k [] n (gcmSeal E k [] n pt aad) aad = .ok pt := by
  unfold gcmSeal gcmOpen
  simp only [List.nil_append]
  set ct := ctrCrypt E k n pt with hct
  set tag := gcmTag E k n ct aad with htag
  have hctl : ct.length = pt.length := ctrCrypt_length E hE k n pt
  have htagl : tag.length = 16 := natToBe_length 16 _
  have hlen : (ct ++ tag).length = ct.length + 16 := by simp [htagl]
  rw [if_neg (by omega)]
  have hsub : (ct ++ tag).length - 16 = ct.length := by omega
  rw [hsub, List.take_left, List.drop_left]
  rw [if_pos rfl]
  rw [hct, ctrCrypt_invol E hE]

/-- A concrete block cipher used to instantiate witnesses: every block
encrypts to sixteen zero bytes. -/
def constCipher : BlockCipher := fun _ _ => List.replicate 16 0

theorem constCipher_len : ∀ k b, (constCipher k b).length = 16 := fun _ _ => rfl

/-- C1: for every instance constructed from a 32-byte key, every 24-byte
nonce, every plaintext and associated data, manual-nonce Seal succeeds and
manual-nonce Open on its result with the same nonce and associated data
returns exactly the original plaintext. -/
theorem C1_seal_open_roundtrip (E : BlockCipher) (hE : ∀ k b, (E k b).length = 16)
    (key nonce pt aad : List Nat) (x : XAES)
    (_hk : key.length = 32) (_hx : newWithManualNonces E key = .ok x)
    (hn : nonce.length = 24) :
    ∃ c, sealManual E x [] nonce pt aad = some c ∧
      openManual E x [] nonce c aad = .ok pt := by
  refine ⟨gcmSeal E (deriveKey E x (nonce.take 12)) [] (nonce.drop 12) pt aad, ?_, ?_⟩
  · unfold sealManual
    rw [if_neg (by simp [NonceSize, hn])]
  · unfold openManual
    rw [if_neg (by simp [NonceSize, hn])]
    exact gcm_roundtrip E hE _ _ pt aad

/-- Witness for C1 at a concrete key, nonce, plaintext and associated data. -/
theorem C1_witness :
    ∃ c, sealManual constCipher ⟨List.replicate 32 0, List.replicate 16 0⟩ []
        (List.replicate 24 1) [1, 2, 3] [4] = some c ∧
      openManual constCipher ⟨List.replicate 32 0, List.replicate 16 0⟩ []
        (List.replicate 24 1) c [4] = .ok [1, 2, 3] :=
  C1_seal_open_roundtrip constCipher constCipher_len (List.replicate 32 0)
    (List.replicate 24 1) [1, 2, 3] [4] ⟨List.replicate 32 0, List.replicate 16 0⟩
    (by decide) (by rfl) (by decide)

/-- The derived key written as the spec words it (claim C2): the
concatenation of the encryptions of block1 = {0,1,'X',0} || N1 and
block2 = {0,2,'X',0} || N1, each XORed with K1 first. -/
def deriveKeySpec (E : BlockCipher) (x : XAES) (n1 : List Nat) : List Nat :=
  E x.ck (xorBytes ([0, 1, 88, 0] ++ n1) x.k1) ++
    E x.ck (xorBytes ([0, 2, 88, 0] ++ n1) x.k1)

/-- C2: for every 12-byte nonce prefix, the derived message key equals the
concatenation of the two block encryptions described by the spec and is
exactly 32 bytes long. -/
theorem C2_deriveKey_spec (E : BlockCipher) (hE : ∀ k b, (E k b).length = 16)
    (x : XAES) (n1 : List Nat) (hn : n1.length = 12) :
    deriveKey E x n1 = deriveKeySpec E x n1 ∧ (deriveKey E x n1).length = 32 := by
  have hA : ([0, 1, 88, 0] ++ n1).length = aesBlockSize := by
    simp [hn, aesBlockSize]
  constructor
  · unfold deriveKey deriveKeySpec
    dsimp only
    rw [List.take_left' hA, List.drop_left' hA]
  · unfold deriveKey
    dsimp only
    simp [hE]

/-- Witness for C2 at a concrete instance and nonce prefix. -/
theorem C2_witness :
    deriveKey constCipher ⟨List.replicate 32 0, List.replicate 16 0⟩
        (List.replicate 12 9)
      = deriveKeySpec constCipher ⟨List.replicate 32 0, List.replicate 16 0⟩
          (List.replicate 12 9) ∧
    (deriveKey constCipher ⟨List.replicate 32 0, List.replicate 16 0⟩
        (List.replicate 12 9)).length = 32 :=
  C2_deriveKey_spec constCipher constCipher_len _ (List.replicate 12 9) (by decide)

/-- The spec's byte-level shift (claim C3): each byte becomes its own value
shifted left by one bit, picking up the most significant bit of the
following byte. -/
def shiftLeft1Spec (l : List Nat) : List Nat :=
  (List.range l.length).map
    (fun i => l.getD i 0 * 2 % 256 ||| l.getD (i + 1) 0 / 128)

/-- The spec's doubling in GF(2^128) (claim C3): shift left one bit across
all bytes, then XOR the last byte with 0x87 exactly when the most
significant bit of the original value was 1. -/
def doubleSpec (l : List Nat) : List Nat :=
  if l.getD 0 0 / 128 = 1 then setLastXor (shiftLeft1Spec l) 0x87
  else shiftLeft1Spec l

theorem shl1_eq_spec (l : List Nat) : shl1 l = (l.getD 0 0 / 128, shiftLeft1Spec l) := by
  induction l with
  | nil => rfl
  | cons b r ih =>
    unfold shl1
    rw [ih]
    simp only [List.getD_cons_zero]
    refine Prod.ext rfl ?_
    unfold shiftLeft1Spec
    simp [List.range_succ_eq_map, List.map_map, Function.comp_def,
      List.getD_cons_succ, List.getD_cons_zero]

theorem setLastXor_zero : ∀ l : List Nat, setLastXor l 0 = l
  | [] => rfl
  | [b] => by simp [setLastXor]
  | b :: c :: r => by
    rw [show setLastXor (b :: c :: r) 0 = b :: setLastXor (c :: r) 0 from rfl,
      setLastXor_zero (c :: r)]

theorem cmacDouble_eq_doubleSpec (l : List Nat) (hb : l.getD 0 0 < 256) :
    cmacDouble l = doubleSpec l := by
  unfold cmacDouble doubleSpec
  rw [shl1_eq_spec]
  dsimp only
  by_cases h : l.getD 0 0 / 128 = 1
  · rw [if_pos h, h, one_mul]
  · have h0 : l.getD 0 0 / 128 = 0 := by omega
    rw [if_neg h, h0, zero_mul, setLastXor_zero]

/-- C3: construction computes K1 from a 32-byte master key by encrypting the
all-zero block and doubling the result in GF(2^128): a one-bit left shift
across all 16 bytes, then XOR of the last byte with 0x87 exactly when the
most significant bit of the original value was 1. -/
theorem C3_k1_doubling (E : BlockCipher) (key : List Nat) (x : XAES)
    (hk : key.length = 32) (hx : newWithManualNonces E key = .ok x)
    (hb : (E key (List.replicate 16 0)).getD 0 0 < 256) :
    x.k1 = doubleSpec (E key (List.replicate 16 0)) := by
  unfold newWithManualNonces at hx
  rw [if_neg (by simp [KeySize, hk])] at hx
  injection hx with hx
  rw [← hx]
  exact cmacDouble_eq_doubleSpec _ hb

/-- Witness for C3 at a concrete key and cipher. -/
theorem C3_witness :
    (XAES.mk (List.replicate 32 0) (List.replicate 16 0)).k1
      = doubleSpec (constCipher (List.replicate 32 0) (List.replicate 16 0)) :=
  C3_k1_doubling constCipher (List.replicate 32 0)
    (XAES.mk (List.replicate 32 0) (List.replicate 16 0))
    (by decide) (by rfl) (by decide)

/-- C4 counterexample: automatic-mode Open with a non-empty caller nonce
returns the distinct bad-nonce-length error, not the generic
message-authentication-failed error used for short or tampered input. -/
theorem C4_counterexample :
    openAuto constCipher ⟨List.replicate 32 0, List.replicate 16 0⟩ [] [0]
        [1, 2, 3] [] = .error "xaes256gcm: bad nonce length" ∧
      "xaes256gcm: bad nonce length" ≠ "xaes256gcm: message authentication failed" :=
  ⟨rfl, by decide⟩

/-- C4 amended: automatic-mode Open with a non-empty caller nonce fails with
the distinct recoverable bad-nonce-length error (the same error text as
manual-mode Open's nonce check), not with the generic authentication
failure. -/
theorem C4_auto_open_nonce (E : BlockCipher) (x : XAES)
    (dst nonce ct aad : List Nat) (h : nonce.length ≠ 0) :
    openAuto E x dst nonce ct aad = .error "xaes256gcm: bad nonce length" := by
  unfold openAuto
  rw [if_pos h]

/-- Witness for the amended C4 at a concrete non-empty nonce. -/
theorem C4_witness :
    openAuto constCipher ⟨List.replicate 32 0, List.replicate 16 0⟩ [] [5] [] []
      = .error "xaes256gcm: bad nonce length" :=
  C4_auto_open_nonce constCipher ⟨List.replicate 32 0, List.replicate 16 0⟩
    [] [5] [] [] (by decide)

/-- C5: construction (both the internal constructor and the exported New and
NewWithManualNonces) errors with the bad-key-length error, producing no
instance, exactly when the key is not 32 bytes, and succeeds on every
32-byte key. -/
theorem C5_construct_key_length (E : BlockCipher) (key : List Nat) :
    (key.length ≠ 32 →
      newWithManualNonces E key = .error "xaes256gcm: bad key length" ∧
      NewWithManualNonces E key = .error "xaes256gcm: bad key length" ∧
      New E key = .error "xaes256gcm: bad key length") ∧
    (key.length = 32 →
      ∃ x : XAES, newWithManualNonces E key = .ok x ∧
        NewWithManualNonces E key = .ok x ∧ New E key = .ok x) := by
  constructor
  · intro h
    have e : newWithManualNonces E key = .error "xaes256gcm: bad key length" := by
      unfold newWithManualNonces
      rw [if_pos (by simp [KeySize, h])]
    exact ⟨e, e, by simp only [New, e]⟩
  · intro h
    have e : newWithManualNonces E key
        = .ok ⟨key, cmacDouble (E key (List.replicate 16 0))⟩ := by
      unfold newWithManualNonces
      rw [if_neg (by simp [KeySize, h])]
    exact ⟨_, e, e, by simp only [New, e]⟩

/-- Witness for C5 at key lengths 0, 16, 31, 33 and 32. -/
theorem C5_witness :
    newWithManualNonces constCipher [] = .error "xaes256gcm: bad key length" ∧
    newWithManualNonces constCipher (List.replicate 16 0)
      = .error "xaes256gcm: bad key length" ∧
    newWithManualNonces constCipher (List.replicate 31 0)
      = .error "xaes256gcm: bad key length" ∧
    newWithManualNonces constCipher (List.replicate 33 0)
      = .error "xaes256gcm: bad key length" ∧
    ∃ x : XAES, newWithManualNonces constCipher (List.replicate 32 0) = .ok x ∧
      NewWithManualNonces constCipher (List.replicate 32 0) = .ok x ∧
      New constCipher (List.replicate 32 0) = .ok x :=
  ⟨((C5_construct_key_length constCipher []).1 (by decide)).1,
    ((C5_construct_key_length constCipher (List.replicate 16 0)).1 (by decide)).1,
    ((C5_construct_key_length constCipher (List.replicate 31 0)).1 (by decide)).1,
    ((C5_construct_key_length constCipher (List.replicate 33 0)).1 (by decide)).1,
    (C5_construct_key_length constCipher (List.replicate 32 0)).2 (by decide)⟩

/-- C6: for nonces that are not 24 bytes, manual-nonce Seal traps while
manual-nonce Open returns the recoverable bad-nonce-length error; for
24-byte nonces Seal succeeds and Open never fails on nonce length. -/
theorem C6_manual_nonce_length (E : BlockCipher) (x : XAES)
    (dst nonce pt ct aad : List Nat) :
    (nonce.length ≠ 24 →
      sealManual E x dst nonce pt aad = none ∧
      openManual E x dst nonce ct aad = .error "xaes256gcm: bad nonce length") ∧
    (nonce.length = 24 →
      (∃ c, sealManual E x dst nonce pt aad = some c) ∧
      openManual E x dst nonce ct aad ≠ .error "xaes256gcm: bad nonce length") := by
  constructor
  · intro h
    constructor
    · unfold sealManual
      rw [if_pos (by simp [NonceSize, h])]
    · unfold openManual
      rw [if_pos (by simp [NonceSize, h])]
  · intro h
    constructor
    · exact ⟨_, by unfold sealManual; rw [if_neg (by simp [NonceSize, h])]⟩
    · unfold openManual
      rw [if_neg (by simp [NonceSize, h])]
      unfold gcmOpen
      split
      · intro hc
        exact absurd (Except.error.inj hc) (by decide)
      · dsimp only
        split
        · intro hc
          exact Except.noConfusion hc
        · intro hc
          exact absurd (Except.error.inj hc) (by decide)

/-- Witness for C6 at a wrong-length nonce and at a 24-byte nonce. -/
theorem C6_witness :
    (sealManual constCipher ⟨List.replicate 32 0, List.replicate 16 0⟩ [] [1, 2]
        [7] [] = none ∧
      openManual constCipher ⟨List.replicate 32 0, List.replicate 16 0⟩ [] [1, 2]
        [7] [] = .error "xaes256gcm: bad nonce length") ∧
    ((∃ c, sealManual constCipher ⟨List.replicate 32 0, List.replicate 16 0⟩ []
        (List.replicate 24 2) [7] [] = some c) ∧
      openManual constCipher ⟨List.replicate 32 0, List.replicate 16 0⟩ []
        (List.replicate 24 2) [7] [] ≠ .error "xaes256gcm: bad nonce length") :=
  ⟨(C6_manual_nonce_length constCipher ⟨List.replicate 32 0, List.replicate 16 0⟩
      [] [1, 2] [7] [7] []).1 (by decide),
    (C6_manual_nonce_length constCipher ⟨List.replicate 32 0, List.replicate 16 0⟩
      [] (List.replicate 24 2) [7] [7] []).2 (by decide)⟩

theorem gcmSeal_append (E : BlockCipher) (k dst n pt aad : List Nat) :
    gcmSeal E k dst n pt aad = dst ++ gcmSeal E k [] n pt aad := by
  unfold gcmSeal
  dsimp only
  rw [List.nil_append, List.append_assoc]

/-- C7: automatic-mode Seal with an empty nonce lays out its output as the
24 generated random bytes immediately followed by the manual-mode
ciphertext for that nonce, after the caller's destination buffer, with 40
bytes of total overhead over the plaintext; it traps on a non-empty caller
nonce and on random-source failure. -/
theorem C7_auto_seal_layout (E : BlockCipher) (hE : ∀ k b, (E k b).length = 16)
    (x : XAES) (dst r pt aad : List Nat) (hr : r.length = 24) :
    (∃ c, sealManual E x [] r pt aad = some c ∧
      sealAuto E x dst [] (some r) pt aad = some (dst ++ r ++ c) ∧
      (dst ++ r ++ c).length = dst.length + pt.length + 40) ∧
    (∀ nonce : List Nat, nonce.length ≠ 0 →
      sealAuto E x dst nonce (some r) pt aad = none) ∧
    sealAuto E x dst [] none pt aad = none := by
  refine ⟨?_, ?_, rfl⟩
  · refine ⟨gcmSeal E (deriveKey E x (r.take 12)) [] (r.drop 12) pt aad, ?_, ?_, ?_⟩
    · unfold sealManual
      rw [if_neg (by simp [NonceSize, hr])]
    · unfold sealAuto
      rw [if_neg (by simp)]
      dsimp only
      unfold sealManual
      rw [if_neg (by simp [NonceSize, hr])]
      rw [gcmSeal_append, List.append_assoc]
    · unfold gcmSeal
      dsimp only
      have h1 : (ctrCrypt E (deriveKey E x (r.take 12)) (r.drop 12) pt).length
          = pt.length := ctrCrypt_length E hE _ _ pt
      have h2 : (gcmTag E (deriveKey E x (r.take 12)) (r.drop 12)
          (ctrCrypt E (deriveKey E x (r.take 12)) (r.drop 12) pt) aad).length = 16 :=
        natToBe_length 16 _
      simp only [List.length_append, List.nil_append, h1, h2, hr]
      omega
  · intro nonce h
    unfold sealAuto
    rw [if_pos h]

/-- Witness for C7 at a concrete instance, destination and random nonce. -/
theorem C7_witness :
    (∃ c, sealManual constCipher ⟨List.replicate 32 0, List.replicate 16 0⟩ []
        (List.replicate 24 3) [6] [] = some c ∧
      sealAuto constCipher ⟨List.replicate 32 0, List.replicate 16 0⟩ [9, 9] []
        (some (List.replicate 24 3)) [6] [] = some ([9, 9] ++ List.replicate 24 3 ++ c) ∧
      ([9, 9] ++ List.replicate 24 3 ++ c).length = [9, 9].length + [6].length + 40) ∧
    (∀ nonce : List Nat, nonce.length ≠ 0 →
      sealAuto constCipher ⟨List.replicate 32 0, List.replicate 16 0⟩ [9, 9] nonce
        (some (List.replicate 24 3)) [6] [] = none) ∧
    sealAuto constCipher ⟨List.replicate 32 0, List.replicate 16 0⟩ [9, 9] [] none
      [6] [] = none :=
  C7_auto_seal_layout constCipher constCipher_len
    ⟨List.replicate 32 0, List.replicate 16 0⟩ [9, 9] (List.replicate 24 3) [6] []
    (by decide)

/-- C8: automatic-mode Open with an empty nonce fails with the generic
message-authentication-failed error on input shorter than 24 bytes, and
otherwise equals manual-mode Open applied to the first 24 bytes as the
nonce and the rest as the ciphertext. -/
theorem C8_auto_open_delegation (E : BlockCipher) (x : XAES)
    (dst ct aad : List Nat) :
    (ct.length < 24 →
      openAuto E x dst [] ct aad
        = .error "xaes256gcm: message authentication failed") ∧
    (24 ≤ ct.length →
      openAuto E x dst [] ct aad
        = openManual E x dst (ct.take 24) (ct.drop 24) aad) := by
  constructor
  · intro h
    unfold openAuto
    rw [if_neg (by simp), if_pos (by simpa [NonceSize] using h)]
  · intro h
    unfold openAuto
    rw [if_neg (by simp), if_neg (by simp only [NonceSize]; omega)]
    rfl

/-- Witness for C8 on a short input and on a long enough input. -/
theorem C8_witness :
    openAuto constCipher ⟨List.replicate 32 0, List.replicate 16 0⟩ [] [] [1, 2, 3] []
        = .error "xaes256gcm: message authentication failed" ∧
      openAuto constCipher ⟨List.replicate 32 0, List.replicate 16 0⟩ [] []
          (List.replicate 30 1) []
        = openManual constCipher ⟨List.replicate 32 0, List.replicate 16 0⟩ []
            ((List.replicate 30 1).take 24) ((List.replicate 30 1).drop 24) [] :=
  ⟨(C8_auto_open_delegation constCipher ⟨List.replicate 32 0, List.replicate 16 0⟩
      [] [1, 2, 3] []).1 (by decide),
    (C8_auto_open_delegation constCipher ⟨List.replicate 32 0, List.replicate 16 0⟩
      [] (List.replicate 30 1) []).2 (by decide)⟩

/-- The key lengths `crypto/aes.NewCipher` accepts without error. -/
def aesKeyLenValid (n : Nat) : Bool := n == 16 || n == 24 || n == 32

/-- The block size `cipher.NewGCM` requires of its cipher. -/
def gcmBlockSizeOk (n : Nat) : Bool := n == 16

/-- C9: the derived message key is always exactly 32 bytes, a key length
`crypto/aes.NewCipher` accepts, and the AES block size is the 16 bytes that
`cipher.NewGCM` requires, so the ignored error results in the manual Seal
and Open paths are always nil. -/
theorem C9_inner_errors_unreachable (E : BlockCipher)
    (hE : ∀ k b, (E k b).length = 16) (x : XAES) (n1 : List Nat) :
    (deriveKey E x n1).length = 32 ∧
      aesKeyLenValid (deriveKey E x n1).length = true ∧
      gcmBlockSizeOk aesBlockSize = true := by
  have h : (deriveKey E x n1).length = 32 := by
    unfold deriveKey
    dsimp only
    simp [hE]
  exact ⟨h, by rw [h]; rfl, rfl⟩

/-- Witness for C9 at a concrete instance and nonce prefix. -/
theorem C9_witness :
    (deriveKey constCipher ⟨List.replicate 32 0, List.replicate 16 0⟩
        (List.replicate 12 4)).length = 32 ∧
      aesKeyLenValid (deriveKey constCipher ⟨List.replicate 32 0, List.replicate 16 0⟩
        (List.replicate 12 4)).length = true ∧
      gcmBlockSizeOk aesBlockSize = true :=
  C9_inner_errors_unreachable constCipher constCipher_len
    ⟨List.replicate 32 0, List.replicate 16 0⟩ (List.replicate 12 4)

/-- C10: whatever automatic-mode Seal returns starts with the original
contents of the caller's destination buffer; the sealed nonce and
ciphertext are appended after them. -/
theorem C10_seal_preserves_dst (E : BlockCipher) (x : XAES)
    (dst r pt aad res : List Nat)
    (h : sealAuto E x dst [] (some r) pt aad = some res) :
    res.take dst.length = dst := by
  unfold sealAuto at h
  rw [if_neg (by simp)] at h
  dsimp only at h
  unfold sealManual at h
  by_cases hr : r.length = NonceSize
  · rw [if_neg (by simp [hr])] at h
    rw [gcmSeal_append] at h
    injection h with h
    rw [← h, List.append_assoc, List.take_left]
  · rw [if_pos (by simp [hr])] at h
    exact absurd h (by simp)

set_option maxRecDepth 40000 in
/-- Witness for C10 at a concrete destination buffer and sealed output. -/
theorem C10_witness :
    List.take ([9, 9] : List Nat).length
        ([9, 9] ++ List.replicate 24 3 ++ [6] ++ List.replicate 16 0) = [9, 9] :=
  C10_seal_preserves_dst constCipher ⟨List.replicate 32 0, List.replicate 16 0⟩
    [9, 9] (List.replicate 24 3) [6] []
    ([9, 9] ++ List.replicate 24 3 ++ [6] ++ List.replicate 16 0) (by decide)
